import Mathlib

/-!
Verification of the dashboard aggregation logic of the Kursverwaltung
dashboard (src/src/pages/DashboardOverview.tsx).

The component fetches five record collections (Dozenten, Raeume,
Teilnehmer, Kurse, Anmeldungen) and derives view data from them:
total revenue, paid/unpaid counts, active courses, courses per
instructor, the five most recent enrollments, and name/title lookups.

This file gives a shallow embedding of those collections and the
derived computations, and proves the specified properties about them.
JavaScript numbers used for prices are embedded as `Int`; JavaScript
strings as `String`; optional fields as `Option`; falsy-or defaults
(`x || d`) are embedded by explicit matches that treat the absent
value, the empty string and the number 0 the way JavaScript truthiness
does at each use site.
-/

/-! ## Data model

Record shapes as consumed by DashboardOverview.tsx: every record has a
stable `record_id` and a field bag. Only the fields that the dashboard
reads are modelled. -/

structure DozentenFields where
  name : Option String
deriving DecidableEq, Repr

structure Dozenten where
  record_id : String
  fields : DozentenFields
deriving DecidableEq, Repr

structure Raeume where
  record_id : String
deriving DecidableEq, Repr

structure TeilnehmerFields where
  name : Option String
deriving DecidableEq, Repr

structure Teilnehmer where
  record_id : String
  fields : TeilnehmerFields
deriving DecidableEq, Repr

structure KurseFields where
  titel : Option String
  preis : Option Int
  enddatum : Option String
  dozent : Option String
deriving DecidableEq, Repr

structure Kurse where
  record_id : String
  fields : KurseFields
deriving DecidableEq, Repr

structure AnmeldungenFields where
  kurs : Option String
  teilnehmer : Option String
  anmeldedatum : Option String
  bezahlt : Bool
deriving DecidableEq, Repr

structure Anmeldungen where
  record_id : String
  fields : AnmeldungenFields
deriving DecidableEq, Repr

/-! ## Identifier extraction -/

/-- Splits a character list at every slash, keeping empty segments,
mirroring how a link-like reference string decomposes into path
segments. -/
def splitSlash : List Char → List (List Char)
  | [] => [[]]
  | c :: rest =>
    let r := splitSlash rest
    if c = '/' then [] :: r
    else
      match r with
      | [] => [[c]]
      | h :: t => (c :: h) :: t

/-- A recognizable record-identifier token: a nonempty run of
alphanumeric characters. -/
def isIdentToken (l : List Char) : Bool :=
  !l.isEmpty && l.all Char.isAlphanum

/-- Modelled from the spec: `extractRecordId` is imported from
`@/services/livingAppsService`, which is not among the sources of this
repository. Per the spec (§4.1) it maps an absent or empty reference, or
one that contains no recognizable identifier pattern, to the absent
value, and otherwise extracts the record identifier embedded in the
link-like string — here taken to be the last alphanumeric path segment. -/
def extractRecordId (ref : Option String) : Option String :=
  match ref with
  | none => none
  | some s => (((splitSlash s.data).filter isIdentToken).getLast?).map String.mk

/-- True when the string contains a recognizable identifier pattern,
i.e. at least one nonempty alphanumeric path segment. -/
def hasRecordIdPattern (s : String) : Bool :=
  !((splitSlash s.data).filter isIdentToken).isEmpty

/-! ## Aggregator: total revenue (DashboardOverview.tsx lines 50-54) -/

/-- Resolution of the course reference of an enrollment:
`kurse.find(k => k.record_id === extractRecordId(a.fields.kurs))`. -/
def resolveKurs (kurse : List Kurse) (ref : Option String) : Option Kurse :=
  kurse.find? (fun k => some k.record_id == extractRecordId ref)

/-- Contribution of one enrollment to the revenue sum:
`kurs?.fields.preis || 0` — 0 when the reference is unresolved, when
the resolved course has no price, and when the price is 0 (JavaScript
falsy-or). -/
def kursPreis (kurse : List Kurse) (a : Anmeldungen) : Int :=
  match resolveKurs kurse a.fields.kurs with
  | some k => k.fields.preis.getD 0
  | none => 0

/-- `totalRevenue`: `anmeldungen.reduce((sum, a) => sum + (kurs?.fields.preis || 0), 0)`. -/
def totalRevenue (anmeldungen : List Anmeldungen) (kurse : List Kurse) : Int :=
  anmeldungen.foldl (fun sum a => sum + kursPreis kurse a) 0

/-! ## Aggregator: payment counts (lines 56-57) -/

/-- `paidCount`: `anmeldungen.filter(a => a.fields.bezahlt).length`. -/
def paidCount (anmeldungen : List Anmeldungen) : Nat :=
  (anmeldungen.filter (fun a => a.fields.bezahlt)).length

/-- `unpaidCount`: `anmeldungen.length - paidCount` — derived by
subtraction, not independently filtered. -/
def unpaidCount (anmeldungen : List Anmeldungen) : Nat :=
  anmeldungen.length - paidCount anmeldungen

/-! ## Aggregator: active courses (lines 59-62) -/

/-- `activeKurse`: courses whose `enddatum` is present and strictly in
the future. The source first guards with the JavaScript truthiness
test on `k.fields.enddatum` and returns false for a falsy value, so an
absent end date and an empty-string end date are both rejected before
the date test runs. The date test
`isAfter(parseISO(k.fields.enddatum), new Date())` is delegated to the
external date-fns collaborator; it is embedded as the parameter
`laterThanNow`, the point-in-time predicate "this date string parses
to an instant strictly after now". -/
def activeKurse (laterThanNow : String → Bool) (kurse : List Kurse) : List Kurse :=
  kurse.filter (fun k =>
    match k.fields.enddatum with
    | none => false
    | some s => if s = "" then false else laterThanNow s)

/-! ## Aggregator: courses per instructor (lines 65-71) -/

/-- One bar of the "Kurse pro Dozent" chart: `{ name, kurse }`. -/
structure DozentChartEntry where
  name : String
  kurse : Nat
deriving DecidableEq, Repr

/-- Number of courses whose instructor reference resolves to the given
instructor: `kurse.filter(k => extractRecordId(k.fields.dozent) === d.record_id).length`. -/
def kursCountFor (kurse : List Kurse) (d : Dozenten) : Nat :=
  (kurse.filter (fun k => extractRecordId k.fields.dozent == some d.record_id)).length

/-- The chart label of an instructor: the source takes element 0 of
`d.fields.name` split at the space character and applies a falsy-or
fallback to the fixed label. The first element of a JavaScript split
on the space character is the longest space-free leading segment of
the string, so it is embedded with `takeWhile`; the falsy-or makes an
absent name and an empty first segment both fall back to the fixed
label. -/
def dozentLabel (d : Dozenten) : String :=
  match d.fields.name with
  | none => "N/A"
  | some s =>
    let t := String.mk (s.data.takeWhile (fun c => c != ' '))
    if t = "" then "N/A" else t

/-- `kursPerDozent`: map every instructor to its label and course
count, then drop the entries with count 0. -/
def kursPerDozent (dozenten : List Dozenten) (kurse : List Kurse) : List DozentChartEntry :=
  (dozenten.map (fun d => DozentChartEntry.mk (dozentLabel d) (kursCountFor kurse d))).filter
    (fun e => decide (0 < e.kurse))

/-- The instructor label as the words of the spec describe it: the first
whitespace-delimited token of the full name (leading whitespace
skipped, token ends at the next whitespace character), with the fixed
fallback label when the name is absent (or contains no token at all). -/
def specDozentLabel (d : Dozenten) : String :=
  match d.fields.name with
  | none => "N/A"
  | some s =>
    let t := String.mk ((s.data.dropWhile Char.isWhitespace).takeWhile
      (fun c => !c.isWhitespace))
    if t = "" then "N/A" else t

/-- The courses-per-instructor result as the words of the spec describe
it: identical to `kursPerDozent` except that the label is the first
whitespace-delimited token of the name. Used to compare the claimed
labelling against the labelling of the code. -/
def specKursPerDozent (dozenten : List Dozenten) (kurse : List Kurse) : List DozentChartEntry :=
  (dozenten.map (fun d => DozentChartEntry.mk (specDozentLabel d) (kursCountFor kurse d))).filter
    (fun e => decide (0 < e.kurse))

/-! ## Aggregator: recent enrollments (lines 80-86) -/

/-- The sort key of an enrollment: the registration date
`a.fields.anmeldedatum` with a falsy-or default, so a missing date is
read as the empty string. -/
def anmKey (a : Anmeldungen) : String :=
  a.fields.anmeldedatum.getD ""

/-- Stable insertion of an enrollment into a list sorted by date
descending: the new element goes in front of the first element whose
key is not larger, so an element coming earlier in the original list
stays in front of later elements with an equal key. -/
def insertDesc (a : Anmeldungen) : List Anmeldungen → List Anmeldungen
  | [] => [a]
  | b :: rest => if anmKey b ≤ anmKey a then a :: b :: rest else b :: insertDesc a rest

/-- `[...anmeldungen].sort((a, b) => dateB.localeCompare(dateA))`:
a stable sort by registration date descending. ECMAScript sorts are
stable and `localeCompare` on ISO-8601 date strings (digits and
hyphens in a fixed format) coincides with lexicographic string
comparison, so the sort is embedded as a stable insertion sort under
the lexicographic order on the date keys. -/
def sortAnmeldungenDesc (anmeldungen : List Anmeldungen) : List Anmeldungen :=
  anmeldungen.foldr insertDesc []

/-- `recentAnmeldungen`: the sorted list truncated with `.slice(0, 5)`. -/
def recentAnmeldungen (anmeldungen : List Anmeldungen) : List Anmeldungen :=
  (sortAnmeldungenDesc anmeldungen).take 5

/-! ## Lookups (lines 88-96) -/

/-- `getTeilnehmerName`: resolve the reference, look the participant up
by identifier, and apply a falsy-or default to the name field: the
placeholder dash results when the reference is unresolved, the name is
absent, or the name is the empty string. -/
def getTeilnehmerName (teilnehmer : List Teilnehmer) (url : Option String) : String :=
  match teilnehmer.find? (fun t => some t.record_id == extractRecordId url) with
  | some t =>
    match t.fields.name with
    | some s => if s = "" then "-" else s
    | none => "-"
  | none => "-"

/-- `getKursTitel`: resolve the reference, look the course up by
identifier, and apply the same falsy-or default to the title field. -/
def getKursTitel (kurse : List Kurse) (url : Option String) : String :=
  match kurse.find? (fun k => some k.record_id == extractRecordId url) with
  | some k =>
    match k.fields.titel with
    | some s => if s = "" then "-" else s
    | none => "-"
  | none => "-"

/-! ## Load phase (lines 25-47)

`loadData` awaits `Promise.all` over the five fetches. On success all
five state setters run; if any fetch rejects, the `catch` block only
logs the failure, so every collection keeps its initial empty value,
and the `finally` block clears the loading flag either way. The
outcome of one mount is embedded as a function of the five fetch
results; the second component is the diagnostic log entry, `none` when
nothing was logged. -/

structure DashState where
  dozenten : List Dozenten
  raeume : List Raeume
  teilnehmer : List Teilnehmer
  kurse : List Kurse
  anmeldungen : List Anmeldungen
  loading : Bool
deriving DecidableEq, Repr

/-- The view state before any fetch completes: five empty collections,
loading flag set. -/
def initialDashState : DashState :=
  DashState.mk [] [] [] [] [] true

/-- True when a fetch result is a rejection. -/
def exceptFailed {α : Type} : Except String α → Bool
  | Except.error _ => true
  | Except.ok _ => false

/-- The state and diagnostic log after `loadData` ran once, given the
five fetch results: the `Promise.all` join succeeds only when all five
succeed; any rejection leaves all collections empty and logs. -/
def loadData (d : Except String (List Dozenten)) (r : Except String (List Raeume))
    (t : Except String (List Teilnehmer)) (k : Except String (List Kurse))
    (a : Except String (List Anmeldungen)) : DashState × Option String :=
  match d, r, t, k, a with
  | Except.ok dv, Except.ok rv, Except.ok tv, Except.ok kv, Except.ok av =>
    (DashState.mk dv rv tv kv av false, none)
  | _, _, _, _, _ =>
    (DashState.mk [] [] [] [] [] false, some "Failed to load")

/-! ## Example records used by witnesses and counterexamples -/

/-- An enrollment referencing course `k1`. -/
def anmEx1 : Anmeldungen :=
  Anmeldungen.mk "a1" (AnmeldungenFields.mk (some "k1") (some "t1") (some "2024-05-01") true)

/-- A course with identifier `k1` and no price. -/
def kursExNoPreis : Kurse :=
  Kurse.mk "k1" (KurseFields.mk none none none none)

/-- A course taught by instructor `d1`. -/
def kursExDoz : Kurse :=
  Kurse.mk "k1" (KurseFields.mk none none none (some "d1"))

/-- A course with an end date. -/
def kursExEnd : Kurse :=
  Kurse.mk "k2" (KurseFields.mk none none (some "2030-01-01") none)

/-- An instructor with a two-word name. -/
def dozEx : Dozenten :=
  Dozenten.mk "d1" (DozentenFields.mk (some "Anna Berg"))

/-- An instructor without a name. -/
def dozExNoName : Dozenten :=
  Dozenten.mk "d9" (DozentenFields.mk none)

/-- An instructor whose name starts with a space. -/
def dozExLead : Dozenten :=
  Dozenten.mk "d1" (DozentenFields.mk (some " Anna"))

/-- A participant named Max. -/
def teilEx : Teilnehmer :=
  Teilnehmer.mk "t1" (TeilnehmerFields.mk (some "Max"))

/-- A participant without a name. -/
def teilExNoName : Teilnehmer :=
  Teilnehmer.mk "t2" (TeilnehmerFields.mk none)

/-- A course whose title is the empty string. -/
def kursExEmptyTitel : Kurse :=
  Kurse.mk "k3" (KurseFields.mk (some "") none none none)

/-- A failed instructor fetch. -/
def fetchFailEx : Except String (List Dozenten) := Except.error "network"

/-! ## Helper lemmas: revenue -/

theorem totalRevenue_eq_sum (anm : List Anmeldungen) (kurse : List Kurse) :
    totalRevenue anm kurse = (anm.map (fun a => kursPreis kurse a)).sum := by
  have key : ∀ (l : List Anmeldungen) (s : Int),
      l.foldl (fun acc a => acc + kursPreis kurse a) s =
        s + (l.map (fun a => kursPreis kurse a)).sum := by
    intro l
    induction l with
    | nil => intro s; simp
    | cons a rest ih => intro s; simp [List.foldl, ih, add_assoc]
  simpa using key anm 0

/-! ## Helper lemmas: stable descending sort -/

theorem length_insertDesc (a : Anmeldungen) (l : List Anmeldungen) :
    (insertDesc a l).length = l.length + 1 := by
  induction l with
  | nil => rfl
  | cons b rest ih =>
    simp only [insertDesc]
    split
    · simp
    · simp [ih]

theorem length_sortDesc (l : List Anmeldungen) :
    (sortAnmeldungenDesc l).length = l.length := by
  induction l with
  | nil => rfl
  | cons a rest ih =>
    simp only [sortAnmeldungenDesc, List.foldr] at ih ⊢
    rw [length_insertDesc, ih, List.length_cons]

theorem mem_insertDesc {x a : Anmeldungen} {l : List Anmeldungen} :
    x ∈ insertDesc a l ↔ x = a ∨ x ∈ l := by
  induction l with
  | nil => simp [insertDesc]
  | cons b rest ih =>
    simp only [insertDesc]
    split
    · simp [or_assoc, List.mem_cons]
    · simp only [List.mem_cons, ih]
      tauto

theorem perm_insertDesc (a : Anmeldungen) (l : List Anmeldungen) :
    (insertDesc a l).Perm (a :: l) := by
  induction l with
  | nil => simp [insertDesc]
  | cons b rest ih =>
    simp only [insertDesc]
    split
    · exact List.Perm.refl _
    · exact (List.Perm.cons b ih).trans (List.Perm.swap a b rest)

theorem perm_sortDesc (l : List Anmeldungen) :
    (sortAnmeldungenDesc l).Perm l := by
  induction l with
  | nil => exact List.Perm.refl _
  | cons a rest ih =>
    exact (perm_insertDesc a (sortAnmeldungenDesc rest)).trans (List.Perm.cons a ih)

theorem sorted_insertDesc {a : Anmeldungen} {l : List Anmeldungen}
    (h : List.Pairwise (fun x y => anmKey y ≤ anmKey x) l) :
    List.Pairwise (fun x y => anmKey y ≤ anmKey x) (insertDesc a l) := by
  induction l with
  | nil => simp [insertDesc]
  | cons b rest ih =>
    simp only [insertDesc]
    rcases List.pairwise_cons.mp h with ⟨hb, hrest⟩
    split
    · rename_i hba
      exact List.pairwise_cons.mpr ⟨by
        intro y hy
        rcases List.mem_cons.mp hy with rfl | hy
        · exact hba
        · exact le_trans (hb y hy) hba, h⟩
    · rename_i hba
      refine List.pairwise_cons.mpr ⟨?_, ih hrest⟩
      intro y hy
      rcases mem_insertDesc.mp hy with rfl | hy
      · exact le_of_not_le hba
      · exact hb y hy

theorem sorted_sortDesc (l : List Anmeldungen) :
    List.Pairwise (fun x y => anmKey y ≤ anmKey x) (sortAnmeldungenDesc l) := by
  induction l with
  | nil => exact List.Pairwise.nil
  | cons a rest ih => exact sorted_insertDesc ih

theorem filter_insertDesc (a : Anmeldungen) (d : String) (l : List Anmeldungen) :
    (insertDesc a l).filter (fun x => anmKey x == d) =
      if anmKey a == d then a :: l.filter (fun x => anmKey x == d)
      else l.filter (fun x => anmKey x == d) := by
  induction l with
  | nil => cases had : (anmKey a == d) <;> simp [insertDesc, List.filter_cons, had]
  | cons b rest ih =>
    simp only [insertDesc]
    split
    · rename_i hba
      by_cases had : anmKey a == d <;> simp [List.filter_cons, had]
    · rename_i hba
      have hab : anmKey a < anmKey b := lt_of_not_le hba
      by_cases had : anmKey a == d
      · have hbd : (anmKey b == d) = false := by
          rw [beq_iff_eq] at had
          subst had
          simp only [beq_eq_false_iff_ne, ne_eq]
          intro hc
          rw [hc] at hab
          exact lt_irrefl _ hab
        simp [List.filter_cons, hbd, had, ih]
      · simp [List.filter_cons, ih, had]

theorem filter_sortDesc (l : List Anmeldungen) (d : String) :
    (sortAnmeldungenDesc l).filter (fun x => anmKey x == d) =
      l.filter (fun x => anmKey x == d) := by
  induction l with
  | nil => rfl
  | cons a rest ih =>
    show (insertDesc a (sortAnmeldungenDesc rest)).filter _ = _
    rw [filter_insertDesc, List.filter_cons, ih]

/-! ## Helper lemmas: courses per instructor -/

theorem kursPerDozent_eq (dozenten : List Dozenten) (kurse : List Kurse) :
    kursPerDozent dozenten kurse =
      (dozenten.filter (fun d => decide (0 < kursCountFor kurse d))).map
        (fun d => DozentChartEntry.mk (dozentLabel d) (kursCountFor kurse d)) := by
  rw [kursPerDozent, List.filter_map]
  rfl

/-! ## Claim theorems -/

/-- Claim C1: for every enrollment collection and course collection,
the total revenue equals the sum over all enrollments of the price of
the course resolved by matching `extractRecordId` of the course
reference of the enrollment against the course collection by identifier
equality; an enrollment whose reference resolves to no course
contributes 0; and total revenue is 0 for an empty enrollment
collection. -/
theorem totalRevenue_spec (anm : List Anmeldungen) (kurse : List Kurse) :
    totalRevenue anm kurse = (anm.map (fun a => kursPreis kurse a)).sum ∧
    totalRevenue [] kurse = 0 ∧
    (∀ a : Anmeldungen, resolveKurs kurse a.fields.kurs = none → kursPreis kurse a = 0) := by
  refine ⟨totalRevenue_eq_sum anm kurse, rfl, ?_⟩
  intro a h
  simp [kursPreis, h]

/-- Witness for C1: with an empty course collection the reference of
`anmEx1` is unresolved and its contribution is 0. -/
theorem totalRevenue_spec_witness :
    resolveKurs [] anmEx1.fields.kurs = none ∧ kursPreis [] anmEx1 = 0 :=
  ⟨rfl, (totalRevenue_spec [] []).2.2 anmEx1 rfl⟩

/-- Claim C2: `paidCount` counts the enrollments whose paid flag is
set, `unpaidCount` is total minus paid (derived by subtraction), and
the two always sum back to the total number of enrollments. -/
theorem paidCount_unpaidCount_spec (anm : List Anmeldungen) :
    paidCount anm + unpaidCount anm = anm.length ∧
    paidCount anm = anm.countP (fun a => a.fields.bezahlt) ∧
    unpaidCount anm = anm.length - paidCount anm := by
  refine ⟨?_, (List.countP_eq_length_filter _ _).symm, rfl⟩
  exact Nat.add_sub_cancel' (List.length_filter_le _ _)

/-- Claim C3: the recent-enrollments result is the first 5 elements of
a stable sort of all enrollments by registration date descending
(missing dates read as the empty string): the sorted list is a
permutation of the input, is pairwise descending on the date key,
preserves the relative order of enrollments with equal dates, and the
truncated result has length `min 5 total` and is itself descending. -/
theorem recentAnmeldungen_spec (anm : List Anmeldungen) :
    recentAnmeldungen anm = (sortAnmeldungenDesc anm).take 5 ∧
    (sortAnmeldungenDesc anm).Perm anm ∧
    List.Pairwise (fun x y => anmKey y ≤ anmKey x) (sortAnmeldungenDesc anm) ∧
    (∀ d : String, (sortAnmeldungenDesc anm).filter (fun x => anmKey x == d) =
      anm.filter (fun x => anmKey x == d)) ∧
    (recentAnmeldungen anm).length = min 5 anm.length ∧
    List.Pairwise (fun x y => anmKey y ≤ anmKey x) (recentAnmeldungen anm) := by
  refine ⟨rfl, perm_sortDesc anm, sorted_sortDesc anm, fun d => filter_sortDesc anm d, ?_, ?_⟩
  · rw [recentAnmeldungen, List.length_take, length_sortDesc]
  · exact List.Pairwise.sublist (List.take_sublist 5 _) (sorted_sortDesc anm)

/-- Claim C4 counterexample: for the instructor whose stored name is
`" Anna"` (leading space) and one matching course, the code labels the
entry with the fallback `"N/A"` (because `split(' ')[0]` is the empty
string), while the labelling the claim describes — the first
whitespace-delimited token of the full name, fallback only for an
absent name — labels it
`"Anna"`. So the claimed labelling differs from the code. -/
theorem kursPerDozent_label_cex :
    kursPerDozent [dozExLead] [kursExDoz] ≠ specKursPerDozent [dozExLead] [kursExDoz] := by
  decide

/-- Claim C4 (amended): the courses-per-instructor result keeps, in
order, each instructor whose matching-course count is positive, paired
with that count; the label is the first space-delimited segment of the
name, with the fallback label when the name is absent or that segment
is empty (e.g. an empty name or a name starting with a space); no
entry with count 0 appears, and the result is empty when the course
collection is empty. -/
theorem kursPerDozent_spec (dozenten : List Dozenten) (kurse : List Kurse) :
    kursPerDozent dozenten kurse =
      (dozenten.filter (fun d => decide (0 < kursCountFor kurse d))).map
        (fun d => DozentChartEntry.mk (dozentLabel d) (kursCountFor kurse d)) ∧
    (∀ e, e ∈ kursPerDozent dozenten kurse → e.kurse ≠ 0) ∧
    kursPerDozent dozenten [] = [] ∧
    (∀ d : Dozenten, kursCountFor kurse d =
      kurse.countP (fun k => extractRecordId k.fields.dozent == some d.record_id)) ∧
    (∀ d : Dozenten, d.fields.name = none → dozentLabel d = "N/A") := by
  refine ⟨kursPerDozent_eq dozenten kurse, ?_, ?_, ?_, ?_⟩
  · intro e he
    have hp := (List.mem_filter.mp he).2
    exact Nat.pos_iff_ne_zero.mp (of_decide_eq_true hp)
  · rw [kursPerDozent_eq]
    have hz : ∀ d : Dozenten, kursCountFor ([] : List Kurse) d = 0 := fun _ => rfl
    simp [hz]
  · intro d
    exact (List.countP_eq_length_filter _ _).symm
  · intro d h
    simp [dozentLabel, h]

/-- Witness for C4: a concrete entry of a concrete result has a
nonzero count, and a nameless instructor gets the fallback label. -/
theorem kursPerDozent_spec_witness :
    DozentChartEntry.mk "Anna" 1 ∈ kursPerDozent [dozEx] [kursExDoz] ∧
    (DozentChartEntry.mk "Anna" 1).kurse ≠ 0 ∧
    dozentLabel dozExNoName = "N/A" :=
  ⟨by decide, (kursPerDozent_spec [dozEx] [kursExDoz]).2.1 _ (by decide),
   (kursPerDozent_spec [] []).2.2.2.2 dozExNoName rfl⟩

/-- Claim C5: for every point-in-time predicate (the embedding of
"the end date parses to an instant strictly after now") and every
course collection, the active-course filter keeps exactly the courses
whose end date is present and satisfies the predicate; every course
with an absent end date is excluded. The hypothesis `hp` states that
the predicate rejects the empty string, which is true of the embedded
date-fns test at every instant: parseISO of the empty string is an
invalid date, and isAfter on an invalid date is false. -/
theorem activeKurse_spec (p : String → Bool) (kurse : List Kurse)
    (hp : p "" = false) :
    (∀ k : Kurse, k ∈ activeKurse p kurse ↔
      (k ∈ kurse ∧ ∃ s, k.fields.enddatum = some s ∧ p s = true)) ∧
    (∀ k : Kurse, k ∈ activeKurse p kurse → k.fields.enddatum ≠ none) := by
  have hpred : ∀ kk : Kurse,
      ((match kk.fields.enddatum with
        | none => false
        | some s => if s = "" then false else p s) = true) ↔
        (∃ s, kk.fields.enddatum = some s ∧ p s = true) := by
    intro kk
    cases h : kk.fields.enddatum with
    | none => simp [h]
    | some s =>
      by_cases hs : s = ""
      · subst hs
        simp [h, hp]
      · simp [h, hs]
  constructor
  · intro kk
    rw [activeKurse, List.mem_filter]
    exact and_congr_right (fun _ => hpred kk)
  · intro kk hk
    have hmem := (List.mem_filter.mp hk).2
    rcases (hpred kk).mp hmem with ⟨s, hs, _⟩
    simp [hs]

/-- Witness for C5: under a concrete predicate rejecting the empty
string, a course whose end date satisfies the predicate is kept, and
the theorem yields that its end date is present. -/
theorem activeKurse_spec_witness :
    (fun s => s != "") "" = false ∧
    kursExEnd ∈ activeKurse (fun s => s != "") [kursExEnd] ∧
    kursExEnd.fields.enddatum ≠ none :=
  ⟨by decide, by decide,
   (activeKurse_spec (fun s => s != "") [kursExEnd] (by decide)).2 kursExEnd (by decide)⟩

/-- Claim C6: if any one of the five fetches fails, the resulting view
state has all five collections in their initial empty value, the
loading flag cleared, the failure recorded only as a diagnostic log
entry, and every derived metric takes its empty-collection value:
revenue 0, counts 0, empty lists. -/
theorem loadData_failure_spec (d : Except String (List Dozenten))
    (r : Except String (List Raeume)) (t : Except String (List Teilnehmer))
    (k : Except String (List Kurse)) (a : Except String (List Anmeldungen))
    (h : exceptFailed d = true ∨ exceptFailed r = true ∨ exceptFailed t = true ∨
      exceptFailed k = true ∨ exceptFailed a = true) :
    (loadData d r t k a).1 = DashState.mk [] [] [] [] [] false ∧
    (loadData d r t k a).2 = some "Failed to load" ∧
    totalRevenue (loadData d r t k a).1.anmeldungen (loadData d r t k a).1.kurse = 0 ∧
    paidCount (loadData d r t k a).1.anmeldungen = 0 ∧
    unpaidCount (loadData d r t k a).1.anmeldungen = 0 ∧
    (∀ p : String → Bool, activeKurse p (loadData d r t k a).1.kurse = []) ∧
    kursPerDozent (loadData d r t k a).1.dozenten (loadData d r t k a).1.kurse = [] ∧
    recentAnmeldungen (loadData d r t k a).1.anmeldungen = [] := by
  cases d <;> cases r <;> cases t <;> cases k <;> cases a <;>
    simp_all [loadData, exceptFailed, totalRevenue, paidCount, unpaidCount,
      kursPerDozent, recentAnmeldungen, sortAnmeldungenDesc, activeKurse]

/-- Witness for C6: one failed fetch among four successful ones leaves
the state empty with the loading flag cleared. -/
theorem loadData_failure_spec_witness :
    exceptFailed fetchFailEx = true ∧
    (loadData fetchFailEx (Except.ok []) (Except.ok []) (Except.ok [])
      (Except.ok [])).1 = DashState.mk [] [] [] [] [] false :=
  ⟨rfl, (loadData_failure_spec fetchFailEx (Except.ok []) (Except.ok []) (Except.ok [])
    (Except.ok []) (Or.inl rfl)).1⟩

/-- Claim C7: the participant-name and course-title lookups resolve
the reference via `extractRecordId` and an identifier-equality lookup,
return the fixed placeholder when the lookup finds no record, and
return the stored name/title when the lookup succeeds with a nonempty
value; they are total functions, so an unresolved reference never
propagates as a failure. -/
theorem lookup_fallback_spec (ts : List Teilnehmer) (ks : List Kurse) (url : Option String) :
    (ts.find? (fun x => some x.record_id == extractRecordId url) = none →
      getTeilnehmerName ts url = "-") ∧
    (ks.find? (fun x => some x.record_id == extractRecordId url) = none →
      getKursTitel ks url = "-") ∧
    (∀ t s, ts.find? (fun x => some x.record_id == extractRecordId url) = some t →
      t.fields.name = some s → s ≠ "" → getTeilnehmerName ts url = s) ∧
    (∀ k s, ks.find? (fun x => some x.record_id == extractRecordId url) = some k →
      k.fields.titel = some s → s ≠ "" → getKursTitel ks url = s) := by
  refine ⟨?_, ?_, ?_, ?_⟩
  · intro h
    simp [getTeilnehmerName, h]
  · intro h
    simp [getKursTitel, h]
  · intro t s h1 h2 h3
    simp [getTeilnehmerName, h1, h2, h3]
  · intro k s h1 h2 h3
    simp [getKursTitel, h1, h2, h3]

/-- Witness for C7: unresolved references in empty collections give
the placeholder; a resolved participant with a nonempty name gives the
name. -/
theorem lookup_fallback_spec_witness :
    getTeilnehmerName [] (some "t1") = "-" ∧
    getKursTitel [] (some "k1") = "-" ∧
    getTeilnehmerName [teilEx] (some "t1") = "Max" :=
  ⟨(lookup_fallback_spec [] [] (some "t1")).1 rfl,
   (lookup_fallback_spec [] [] (some "k1")).2.1 rfl,
   (lookup_fallback_spec [teilEx] [] (some "t1")).2.2.1 teilEx "Max" (by decide) rfl
     (by decide)⟩

/-- Claim C8: the identifier extractor is a total function on optional
strings (a Lean function, hence deterministic and never failing) that
returns the absent value on an absent input, on the empty string, and
on any string without a recognizable identifier pattern, and returns a
present identifier whenever the string does contain such a pattern. -/
theorem extractRecordId_total_spec :
    extractRecordId none = none ∧
    extractRecordId (some "") = none ∧
    (∀ s : String, hasRecordIdPattern s = false → extractRecordId (some s) = none) ∧
    (∀ s : String, hasRecordIdPattern s = true → (extractRecordId (some s)).isSome = true) := by
  refine ⟨rfl, rfl, ?_, ?_⟩
  · intro s h
    have h2 : ((splitSlash s.data).filter isIdentToken) = [] :=
      List.isEmpty_iff.mp (by simpa [hasRecordIdPattern] using h)
    simp [extractRecordId, h2]
  · intro s h
    have h2 : ((splitSlash s.data).filter isIdentToken) ≠ [] := by
      intro hc
      simp [hasRecordIdPattern, hc] at h
    have h3 := List.getLast?_isSome.mpr h2
    rcases Option.isSome_iff_exists.mp h3 with ⟨v, hv⟩
    simp [extractRecordId, hv]

/-- Witness for C8: a string of punctuation has no identifier pattern
and extracts nothing; a link-like string with an alphanumeric segment
extracts a present identifier. -/
theorem extractRecordId_total_spec_witness :
    hasRecordIdPattern "???" = false ∧
    extractRecordId (some "???") = none ∧
    hasRecordIdPattern "apps/a1/records/r7" = true ∧
    (extractRecordId (some "apps/a1/records/r7")).isSome = true :=
  ⟨by decide, extractRecordId_total_spec.2.2.1 "???" (by decide), by decide,
   extractRecordId_total_spec.2.2.2 "apps/a1/records/r7" (by decide)⟩

/-- Claim C9: an enrollment whose course reference resolves to an
existing course with an absent price, or a price of 0, contributes 0
to the revenue sum and leaves the total unchanged. -/
theorem totalRevenue_missing_price_spec (anm : List Anmeldungen) (kurse : List Kurse)
    (a : Anmeldungen) (k : Kurse)
    (h1 : resolveKurs kurse a.fields.kurs = some k)
    (h2 : k.fields.preis = none ∨ k.fields.preis = some 0) :
    kursPreis kurse a = 0 ∧
    totalRevenue (a :: anm) kurse = totalRevenue anm kurse := by
  have hp : kursPreis kurse a = 0 := by
    rcases h2 with h2 | h2 <;> simp [kursPreis, h1, h2]
  refine ⟨hp, ?_⟩
  rw [totalRevenue_eq_sum, totalRevenue_eq_sum, List.map_cons, List.sum_cons, hp, zero_add]

/-- Witness for C9: an enrollment resolving to a price-less course
leaves the total revenue unchanged. -/
theorem totalRevenue_missing_price_spec_witness :
    resolveKurs [kursExNoPreis] anmEx1.fields.kurs = some kursExNoPreis ∧
    totalRevenue [anmEx1] [kursExNoPreis] = totalRevenue [] [kursExNoPreis] :=
  ⟨by decide,
   (totalRevenue_missing_price_spec [] [kursExNoPreis] anmEx1 kursExNoPreis (by decide)
     (Or.inl rfl)).2⟩

/-- Claim C10: the lookups return the placeholder not only for an
unresolved reference but also when the name/title field of the resolved
record is absent or the empty string. -/
theorem lookup_empty_name_spec (ts : List Teilnehmer) (ks : List Kurse) (url : Option String) :
    (∀ t, ts.find? (fun x => some x.record_id == extractRecordId url) = some t →
      (t.fields.name = none ∨ t.fields.name = some "") →
      getTeilnehmerName ts url = "-") ∧
    (∀ k, ks.find? (fun x => some x.record_id == extractRecordId url) = some k →
      (k.fields.titel = none ∨ k.fields.titel = some "") →
      getKursTitel ks url = "-") := by
  constructor
  · intro t h1 h2
    rcases h2 with h2 | h2 <;> simp [getTeilnehmerName, h1, h2]
  · intro k h1 h2
    rcases h2 with h2 | h2 <;> simp [getKursTitel, h1, h2]

/-- Witness for C10: a resolved participant without a name and a
resolved course with an empty title both give the placeholder. -/
theorem lookup_empty_name_spec_witness :
    getTeilnehmerName [teilExNoName] (some "t2") = "-" ∧
    getKursTitel [kursExEmptyTitel] (some "k3") = "-" :=
  ⟨(lookup_empty_name_spec [teilExNoName] [] (some "t2")).1 teilExNoName (by decide)
     (Or.inl rfl),
   (lookup_empty_name_spec [] [kursExEmptyTitel] (some "k3")).2 kursExEmptyTitel (by decide)
     (Or.inr rfl)⟩
